import Mathlib

/-!
Verification of the branch-pipe (tee/stub) weld strength calculator
(`app.py`, РД 10-249-98).

The development shallowly embeds the two parts of the program:

* the allowable-stress reference table for steel 12Х1МФ together with the
  `interpolate_stress` wrapper around the external 2-D linear interpolation
  routine (scipy `griddata`, method `linear`); its numerical core is a
  third-party library, so it is abstracted as a parameter `g` together with
  contract predicates (`NoExtrap`, `ExactAtNodes`, `PWLinear`) that state the
  documented behaviour of piecewise-linear interpolation over a
  triangulation of scattered data: no extrapolation outside the convex hull,
  exactness at data points, and values that are convex combinations of data
  values.  Table data and the wrapper itself are translated directly from
  the source and are fully computable over `ℚ`.

* the eight-step strength-calculation pipeline.  Python/numpy floats are
  modelled as exact reals extended with infinities and NaN (`FP`), keeping
  IEEE-style special-value propagation (sqrt of a negative number is NaN,
  division of a nonzero finite number by zero is a signed infinity, NaN
  compares false, `x != 0` is true for NaN) while abstracting from rounding.
  The one place where the script performs a pure-Python division (step 3)
  raises `ZeroDivisionError` when its denominator is exactly zero; the
  top-level `runCalculation` models that branch with the `Outcome.fault`
  constructor.
-/

namespace Troynik

/-- Temperature axis of the 12Х1МФ table (°C), from `temperature_ranges`. -/
def temperature_ranges : List ℚ :=
  [20, 250, 300, 350, 400, 420, 440, 450, 460, 480, 500, 510, 520, 530, 540,
   550, 560, 570, 580, 590, 600, 610, 620]

/-- Duration axis of the table (hours): the dictionary keys `1e4 .. 4e5`. -/
def hoursList : List ℚ := [10000, 100000, 200000, 300000, 400000]

/-- The sparse stress table `stress_data_12x1mf`: for each duration key, the
column of optional stress values (MPa) indexed like `temperature_ranges`.
A key outside the five tabulated durations has no entry (the Python dict
would raise `KeyError`; the code only ever uses the five keys). -/
def stress_data_12x1mf (hours : ℚ) : List (Option ℚ) :=
  if hours = 10000 then
    [none, none, none, none, none, none, none, none, none, some 133, some 130,
     some 120, some 112, some 100, some 88, some 80, some 72, some 65, some 59,
     some 53, some 47, some 41, some 35]
  else if hours = 100000 then
    [some 173, some 166, some 159, some 152, some 145, some 142, some 139,
     some 138, some 136, some 133, some 113, some 101, some 90, some 81,
     some 73, some 66, some 59, some 53, some 47, some 41, some 37, some 33,
     none]
  else if hours = 200000 then
    [none, none, none, none, none, none, none, some 138, some 136, some 120,
     some 96, some 86, some 77, some 69, some 62, some 56, some 50, some 44,
     some 39, some 35, some 31, none, none]
  else if hours = 300000 then
    [none, none, none, none, none, none, none, some 138, some 130, some 107,
     some 88, some 79, some 72, some 65, some 58, some 52, some 46, some 41,
     some 36, some 32, some 29, none, none]
  else if hours = 400000 then
    [none, none, none, none, none, none, none, some 138, some 125, some 103,
     some 83, some 76, some 66, some 59, some 53, some 48, some 43, some 38,
     some 34, some 30, some 27, none, none]
  else []

/-- The point-collection loop of `interpolate_stress`: for each temperature
index (outer loop) and each duration key (inner loop), keep the cell if its
stress value is present, producing `((temp, hours), stress)` triples in the
same order as the Python loops build `points` and `values`. -/
def buildPoints (data : ℚ → List (Option ℚ)) : List ((ℚ × ℚ) × ℚ) :=
  temperature_ranges.enum.flatMap fun te =>
    hoursList.filterMap fun h =>
      match (data h).get? te.1 with
      | some (some v) => some ((te.2, h), v)
      | _ => none

/-- The present data points of the 12Х1МФ table. -/
def presentPoints : List ((ℚ × ℚ) × ℚ) := buildPoints stress_data_12x1mf

/-- The function `interpolate_stress`, generalised over the table contents: if no present
point exists return `none` (the `if not points: return None` guard); otherwise
delegate to the interpolation routine `g`.  `g pts q = none` models `griddata`
returning NaN at `q` (query outside the convex hull or degenerate geometry)
as well as the `except: return None` branch; `some v` models the converted
`float(...)` result. -/
def interpolate_stress_gen (g : List ((ℚ × ℚ) × ℚ) → ℚ × ℚ → Option ℚ)
    (data : ℚ → List (Option ℚ)) (temperature operating_hours : ℚ) : Option ℚ :=
  let pts := buildPoints data
  if pts.isEmpty then none else g pts (temperature, operating_hours)

/-- The function `interpolate_stress` on the actual 12Х1МФ table. -/
def interpolate_stress (g : List ((ℚ × ℚ) × ℚ) → ℚ × ℚ → Option ℚ)
    (temperature operating_hours : ℚ) : Option ℚ :=
  interpolate_stress_gen g stress_data_12x1mf temperature operating_hours

/-- The (temperature, hours) key of a query/table point cast to `ℝ × ℝ`. -/
def qPoint (q : ℚ × ℚ) : ℝ × ℝ := ((q.1 : ℝ), (q.2 : ℝ))

/-- The set of present table points, as points of the real plane. -/
def hullPts : Set (ℝ × ℝ) := {x | ∃ pv ∈ presentPoints, x = qPoint pv.1}

/-- Membership of a query point in the convex hull of the present points. -/
def inHull (q : ℚ × ℚ) : Prop := qPoint q ∈ convexHull ℝ hullPts

/-- Contract of the external linear interpolator (scipy `griddata`, method
`linear`), part 1: at a query point outside the convex hull of the data
points it does not interpolate (NaN, modelled as `none`) — piecewise-linear
interpolation over a triangulation never extrapolates. -/
def NoExtrap (g : List ((ℚ × ℚ) × ℚ) → ℚ × ℚ → Option ℚ) : Prop :=
  ∀ q : ℚ × ℚ, ¬ inHull q → g presentPoints q = none

/-- Contract of the external linear interpolator, part 2: at a data point it
reproduces the data value exactly (triangulation vertices are interpolation
nodes). -/
def ExactAtNodes (g : List ((ℚ × ℚ) × ℚ) → ℚ × ℚ → Option ℚ) : Prop :=
  ∀ q v, ((q, v) ∈ presentPoints) → g presentPoints q = some v

/-- The value `v` is a convex combination of the data values of `l`. -/
def IsConvexComboOf (v : ℚ) (l : List ((ℚ × ℚ) × ℚ)) : Prop :=
  ∃ w : Fin l.length → ℚ,
    (∀ i, 0 ≤ w i) ∧ (∑ i, w i) = 1 ∧ v = ∑ i, w i * (l.get i).2

/-- Contract of the external linear interpolator, part 3: every value it
returns is a convex combination of the data values (barycentric
interpolation on a triangle uses nonnegative weights summing to one). -/
def PWLinear (g : List ((ℚ × ℚ) × ℚ) → ℚ × ℚ → Option ℚ) : Prop :=
  ∀ q v, g presentPoints q = some v → IsConvexComboOf v presentPoints

/-- A concrete interpolator used to witness the contracts: exact lookup at
the data points, `none` everywhere else. -/
def nodeLookup (pts : List ((ℚ × ℚ) × ℚ)) (q : ℚ × ℚ) : Option ℚ :=
  (pts.find? fun e => decide (e.1 = q)).map Prod.snd

/-- Python/numpy float values, modelled as exact reals extended with the
special values `inf`, `-inf` and NaN.  Rounding is abstracted away; the
special-value propagation rules below follow IEEE 754 (as implemented by
numpy, which warns but does not raise on `sqrt` of a negative number or on
division by zero), except that the two signed zeros are identified. -/
inductive FP where
  | fin (x : ℝ)
  | inf
  | ninf
  | nan

namespace FP

/-- Float negation. -/
noncomputable def neg : FP → FP
  | fin a => fin (-a)
  | inf => ninf
  | ninf => inf
  | nan => nan

/-- Float addition. -/
noncomputable def add : FP → FP → FP
  | nan, _ => nan
  | _, nan => nan
  | fin a, fin b => fin (a + b)
  | fin _, inf => inf
  | fin _, ninf => ninf
  | inf, fin _ => inf
  | ninf, fin _ => ninf
  | inf, inf => inf
  | ninf, ninf => ninf
  | inf, ninf => nan
  | ninf, inf => nan

/-- Float subtraction. -/
noncomputable def sub (a b : FP) : FP := add a (neg b)

open scoped Classical in
/-- Float multiplication. -/
noncomputable def mul : FP → FP → FP
  | nan, _ => nan
  | _, nan => nan
  | fin a, fin b => fin (a * b)
  | fin a, inf => if 0 < a then inf else if a < 0 then ninf else nan
  | fin a, ninf => if 0 < a then ninf else if a < 0 then inf else nan
  | inf, fin b => if 0 < b then inf else if b < 0 then ninf else nan
  | ninf, fin b => if 0 < b then ninf else if b < 0 then inf else nan
  | inf, inf => inf
  | ninf, ninf => inf
  | inf, ninf => ninf
  | ninf, inf => ninf

open scoped Classical in
/-- Float division (ignoring the sign of zero: division of a nonzero finite
value by zero gives the infinity matching the numerator's sign). -/
noncomputable def div : FP → FP → FP
  | nan, _ => nan
  | _, nan => nan
  | fin a, fin b =>
      if b = 0 then (if a = 0 then nan else if 0 < a then inf else ninf)
      else fin (a / b)
  | fin _, inf => fin 0
  | fin _, ninf => fin 0
  | inf, fin b => if 0 ≤ b then inf else ninf
  | ninf, fin b => if 0 ≤ b then ninf else inf
  | inf, inf => nan
  | inf, ninf => nan
  | ninf, inf => nan
  | ninf, ninf => nan

open scoped Classical in
/-- Square root `np.sqrt`: NaN on negative input (numpy emits a warning, not an error). -/
noncomputable def sqrt : FP → FP
  | nan => nan
  | ninf => nan
  | inf => inf
  | fin a => if a < 0 then nan else fin (Real.sqrt a)

/-- Float comparison `x <= y` (false whenever either side is NaN). -/
def le : FP → FP → Prop
  | nan, _ => False
  | _, nan => False
  | fin a, fin b => a ≤ b
  | fin _, inf => True
  | inf, fin _ => False
  | ninf, fin _ => True
  | fin _, ninf => False
  | ninf, inf => True
  | inf, ninf => False
  | inf, inf => True
  | ninf, ninf => True

/-- Float comparison `x < y` (false whenever either side is NaN). -/
def lt : FP → FP → Prop
  | nan, _ => False
  | _, nan => False
  | fin a, fin b => a < b
  | fin _, inf => True
  | inf, fin _ => False
  | ninf, fin _ => True
  | fin _, ninf => False
  | ninf, inf => True
  | inf, ninf => False
  | inf, inf => False
  | ninf, ninf => False

/-- The Python test `x != 0`: true for NaN and for the infinities. -/
def neZero : FP → Prop
  | fin a => a ≠ 0
  | _ => True

end FP

/-- The sidebar input record: geometry, pressure, temperature, service hours
and corrosion allowance.  Temperatures and hours are only used as
interpolation keys and are kept rational (the hour inputs are integers in
the form); the remaining quantities feed the real-valued pipeline. -/
structure Inputs where
  D_a : ℝ
  s : ℝ
  d_a : ℝ
  s_s : ℝ
  p : ℝ
  T : ℚ
  operating_hours : ℚ
  planned_hours : ℚ
  c : ℝ

/-- Step 1: `total_hours = operating_hours + planned_hours`. -/
def total_hours (i : Inputs) : ℚ := i.operating_hours + i.planned_hours

/-- Step 2: `h_s = np.sqrt(1.25 * (d_a - s_s) * (s_s - c))`. -/
noncomputable def h_s (i : Inputs) : FP :=
  FP.sqrt (FP.fin (1.25 * (i.d_a - i.s_s) * (i.s_s - i.c)))

/-- Step 3: `s_os = (p * d_a) / (2 * sigma_allowable * phi_temp + p)` with
`phi_temp = 1.0`.  In Python this is a pure-float division; `runCalculation`
models its `ZeroDivisionError` branch, so under `Outcome.ok` the divisor is
nonzero and the `FP.div` below agrees with the script. -/
noncomputable def s_os (i : Inputs) (sigma_allowable : ℝ) : FP :=
  FP.div (FP.fin (i.p * i.d_a)) (FP.fin (2 * sigma_allowable * 1.0 + i.p))

/-- Step 4: `f_s = 2 * h_s * ((s_s - c) - s_os)`. -/
noncomputable def f_s (i : Inputs) (sigma_allowable : ℝ) : FP :=
  FP.mul (FP.mul (FP.fin 2) (h_s i))
    (FP.sub (FP.fin (i.s_s - i.c)) (s_os i sigma_allowable))

/-- Step 5: mean diameter `D_m = D_a - s`. -/
noncomputable def D_m (i : Inputs) : ℝ := i.D_a - i.s

/-- Step 5: `z = d_a / np.sqrt(D_m * (s - c))`. -/
noncomputable def z (i : Inputs) : FP :=
  FP.div (FP.fin i.d_a) (FP.sqrt (FP.fin (D_m i * (i.s - i.c))))

open scoped Classical in
/-- Step 5: `phi_od = 2 / (z + 1.75) if (z + 1.75) != 0 else 0`. -/
noncomputable def phi_od (i : Inputs) : FP :=
  if FP.neZero (FP.add (z i) (FP.fin 1.75)) then
    FP.div (FP.fin 2) (FP.add (z i) (FP.fin 1.75))
  else FP.fin 0

/-- Step 6: `denominator = 2 * (s - c) * np.sqrt(D_m * (s - c))`. -/
noncomputable def denominator (i : Inputs) : FP :=
  FP.mul (FP.fin (2 * (i.s - i.c))) (FP.sqrt (FP.fin (D_m i * (i.s - i.c))))

open scoped Classical in
/-- Step 6: `phi_oc = phi_od * (1 + sum_f / denominator)` when
`denominator != 0`, else `phi_od` (with `sum_f = f_s`). -/
noncomputable def phi_oc (i : Inputs) (sigma_allowable : ℝ) : FP :=
  if FP.neZero (denominator i) then
    FP.mul (phi_od i)
      (FP.add (FP.fin 1) (FP.div (f_s i sigma_allowable) (denominator i)))
  else phi_od i

/-- Step 7: `sigma = p * (D_a - (s - c)) / (2 * phi_oc * (s - c))` (numpy
arithmetic: a zero divisor yields an infinity or NaN, not an error). -/
noncomputable def sigma (i : Inputs) (sigma_allowable : ℝ) : FP :=
  FP.div (FP.fin (i.p * (i.D_a - (i.s - i.c))))
    (FP.mul (FP.mul (FP.fin 2) (phi_oc i sigma_allowable)) (FP.fin (i.s - i.c)))

open scoped Classical in
/-- Step 8: `safety_factor = sigma_allowable / sigma if sigma != 0 else 0`. -/
noncomputable def safety_factor (i : Inputs) (sigma_allowable : ℝ) : FP :=
  if FP.neZero (sigma i sigma_allowable) then
    FP.div (FP.fin sigma_allowable) (sigma i sigma_allowable)
  else FP.fin 0

/-- The record of all displayed results of one calculation run. -/
structure Result where
  sigma_allowable : FP
  h_s : FP
  s_os : FP
  f_s : FP
  z : FP
  phi_od : FP
  denominator : FP
  phi_oc : FP
  sigma : FP
  safety_factor : FP
  verdict : Prop

/-- Steps 2–8 of the script, given a determined allowable stress: every
intermediate quantity and the verdict `sigma <= sigma_allowable`. -/
noncomputable def compute (i : Inputs) (sa : ℝ) : Result :=
  { sigma_allowable := FP.fin sa
    h_s := h_s i
    s_os := s_os i sa
    f_s := f_s i sa
    z := z i
    phi_od := phi_od i
    denominator := denominator i
    phi_oc := phi_oc i sa
    sigma := sigma i sa
    safety_factor := safety_factor i sa
    verdict := FP.le (sigma i sa) (FP.fin sa) }

/-- Possible outcomes of pressing the calculate button. -/
inductive Outcome where
  | undeterminable
  | fault
  | ok (r : Result)

open scoped Classical in
/-- The whole calculation block: interpolate the allowable stress at
`(T, total_hours)`; on `None` report the error and stop (`st.stop`), i.e.
`Outcome.undeterminable`; otherwise run steps 2–8.  The `Outcome.fault`
branch models the uncaught Python `ZeroDivisionError` of step 3 when its
divisor is exactly zero (unreachable for table-interpolated stresses, which
are positive). -/
noncomputable def runCalculation (g : List ((ℚ × ℚ) × ℚ) → ℚ × ℚ → Option ℚ)
    (i : Inputs) : Outcome :=
  match interpolate_stress g i.T (total_hours i) with
  | none => Outcome.undeterminable
  | some q =>
      if 2 * (q : ℝ) * 1.0 + i.p = 0 then Outcome.fault
      else Outcome.ok (compute i (q : ℝ))

/-! ### Helper lemmas: the interpolation layer -/

lemma presentPoints_not_empty : presentPoints.isEmpty = false := by decide

lemma interpolate_stress_eq (g : List ((ℚ × ℚ) × ℚ) → ℚ × ℚ → Option ℚ)
    (T h : ℚ) : interpolate_stress g T h = g presentPoints (T, h) := by
  unfold interpolate_stress interpolate_stress_gen
  simp only [show buildPoints stress_data_12x1mf = presentPoints from rfl,
    presentPoints_not_empty, Bool.false_eq_true, if_false]

lemma interpolate_stress_gen_empty (g : List ((ℚ × ℚ) × ℚ) → ℚ × ℚ → Option ℚ)
    (data : ℚ → List (Option ℚ)) (T h : ℚ) (hdata : buildPoints data = []) :
    interpolate_stress_gen g data T h = none := by
  unfold interpolate_stress_gen
  simp [hdata]

/-- Every key of a present point lies in the convex hull of the present
points. -/
lemma keys_in_hull {pv : (ℚ × ℚ) × ℚ} (h : pv ∈ presentPoints) : inHull pv.1 :=
  subset_convexHull ℝ hullPts ⟨pv, h, rfl⟩

/-- The interpolator `nodeLookup` satisfies the no-extrapolation contract. -/
lemma nodeLookup_noExtrap : NoExtrap nodeLookup := by
  intro q hq
  cases hfind : presentPoints.find? (fun e => decide (e.1 = q)) with
  | none => simp [nodeLookup, hfind]
  | some e =>
      have hmem := List.mem_of_find?_eq_some hfind
      have h2 := @List.find?_some ((ℚ × ℚ) × ℚ)
        (fun e => decide (e.1 = q)) e presentPoints hfind
      have hpe : e.1 = q := by simpa using h2
      exact absurd (hpe ▸ keys_in_hull hmem) hq

/-- The keys of the present points are pairwise distinct. -/
lemma keysNodup : (presentPoints.map Prod.fst).Nodup := by decide

lemma find_of_mem_nodupKeys :
    ∀ {l : List ((ℚ × ℚ) × ℚ)}, (l.map Prod.fst).Nodup →
      ∀ {q : ℚ × ℚ} {v : ℚ}, (q, v) ∈ l →
        l.find? (fun e => decide (e.1 = q)) = some (q, v) := by
  intro l
  induction l with
  | nil => intro _ q v hm; cases hm
  | cons e tl ih =>
      intro hnd q v hm
      rcases List.mem_cons.mp hm with he | htl
      · subst he
        simp [List.find?]
      · have hkey : e.1 ≠ q := by
          intro hk
          have : q ∈ tl.map Prod.fst := List.mem_map.mpr ⟨(q, v), htl, rfl⟩
          have := (List.nodup_cons.mp hnd).1
          exact this (hk ▸ List.mem_map.mpr ⟨(q, v), htl, rfl⟩)
        rw [@List.find?_cons_of_neg ((ℚ × ℚ) × ℚ)
          (fun e => decide (e.1 = q)) e tl (by simp [hkey])]
        exact ih (List.nodup_cons.mp hnd).2 htl

/-- The interpolator `nodeLookup` satisfies the node-exactness contract. -/
lemma nodeLookup_exact : ExactAtNodes nodeLookup := by
  intro q v hm
  simp [nodeLookup, find_of_mem_nodupKeys keysNodup hm]

/-- The interpolator `nodeLookup` satisfies the convex-combination contract. -/
lemma nodeLookup_pwlinear : PWLinear nodeLookup := by
  intro q v h
  unfold nodeLookup at h
  cases hfind : presentPoints.find? (fun e => decide (e.1 = q)) with
  | none => rw [hfind] at h; cases h
  | some e =>
      rw [hfind] at h
      have hv : e.2 = v := by simpa using h
      have hmem := List.mem_of_find?_eq_some hfind
      obtain ⟨n, hn⟩ := List.get_of_mem hmem
      refine ⟨fun j => if j = n then 1 else 0, fun j => by positivity, ?_, ?_⟩
      · simp
      · rw [show v = (presentPoints.get n).2 by rw [hn, hv]]
        rw [Finset.sum_congr rfl
          (fun j _ => show (if j = n then (1 : ℚ) else 0) * (presentPoints.get j).2
            = if j = n then (presentPoints.get j).2 else 0 by
              by_cases hj : j = n <;> simp [hj])]
        simp

/-- All present stress values lie between 27 and 173 MPa. -/
lemma presentValues_bounds : ∀ pv ∈ presentPoints, 27 ≤ pv.2 ∧ pv.2 ≤ 173 := by
  decide

/-- A convex combination of the present stress values lies between 27 and
173 MPa. -/
lemma convexCombo_bounds {v : ℚ} (h : IsConvexComboOf v presentPoints) :
    27 ≤ v ∧ v ≤ 173 := by
  obtain ⟨w, hw0, hw1, hv⟩ := h
  have hlo : ∀ j ∈ Finset.univ, w j * 27 ≤ w j * (presentPoints.get j).2 :=
    fun j _ => mul_le_mul_of_nonneg_left
      (presentValues_bounds _ (presentPoints.get_mem j.1 j.2)).1 (hw0 j)
  have hhi : ∀ j ∈ Finset.univ, w j * (presentPoints.get j).2 ≤ w j * 173 :=
    fun j _ => mul_le_mul_of_nonneg_left
      (presentValues_bounds _ (presentPoints.get_mem j.1 j.2)).2 (hw0 j)
  constructor
  · calc (27 : ℚ) = (∑ j, w j) * 27 := by rw [hw1, one_mul]
      _ = ∑ j, w j * 27 := by rw [Finset.sum_mul]
      _ ≤ ∑ j, w j * (presentPoints.get j).2 := Finset.sum_le_sum hlo
      _ = v := hv.symm
  · calc v = ∑ j, w j * (presentPoints.get j).2 := hv
      _ ≤ ∑ j, w j * 173 := Finset.sum_le_sum hhi
      _ = (∑ j, w j) * 173 := by rw [Finset.sum_mul]
      _ = 173 := by rw [hw1, one_mul]

/-- The present points, evaluated to an explicit list (78 cells). -/
lemma presentPoints_eq :
    presentPoints =
      [((20, 100000), 173), ((250, 100000), 166), ((300, 100000), 159),
       ((350, 100000), 152), ((400, 100000), 145), ((420, 100000), 142),
       ((440, 100000), 139), ((450, 100000), 138), ((450, 200000), 138),
       ((450, 300000), 138), ((450, 400000), 138), ((460, 100000), 136),
       ((460, 200000), 136), ((460, 300000), 130), ((460, 400000), 125),
       ((480, 10000), 133), ((480, 100000), 133), ((480, 200000), 120),
       ((480, 300000), 107), ((480, 400000), 103), ((500, 10000), 130),
       ((500, 100000), 113), ((500, 200000), 96), ((500, 300000), 88),
       ((500, 400000), 83), ((510, 10000), 120), ((510, 100000), 101),
       ((510, 200000), 86), ((510, 300000), 79), ((510, 400000), 76),
       ((520, 10000), 112), ((520, 100000), 90), ((520, 200000), 77),
       ((520, 300000), 72), ((520, 400000), 66), ((530, 10000), 100),
       ((530, 100000), 81), ((530, 200000), 69), ((530, 300000), 65),
       ((530, 400000), 59), ((540, 10000), 88), ((540, 100000), 73),
       ((540, 200000), 62), ((540, 300000), 58), ((540, 400000), 53),
       ((550, 10000), 80), ((550, 100000), 66), ((550, 200000), 56),
       ((550, 300000), 52), ((550, 400000), 48), ((560, 10000), 72),
       ((560, 100000), 59), ((560, 200000), 50), ((560, 300000), 46),
       ((560, 400000), 43), ((570, 10000), 65), ((570, 100000), 53),
       ((570, 200000), 44), ((570, 300000), 41), ((570, 400000), 38),
       ((580, 10000), 59), ((580, 100000), 47), ((580, 200000), 39),
       ((580, 300000), 36), ((580, 400000), 34), ((590, 10000), 53),
       ((590, 100000), 41), ((590, 200000), 35), ((590, 300000), 32),
       ((590, 400000), 30), ((600, 10000), 47), ((600, 100000), 37),
       ((600, 200000), 31), ((600, 300000), 29), ((600, 400000), 27),
       ((610, 10000), 41), ((610, 100000), 33), ((620, 10000), 35)] := by
  rfl

/-- Separating functional for the spec's example extrapolation query: on all
present points, `hours - temperature` is at most `399550`. -/
lemma sep_bound : ∀ pv ∈ presentPoints, pv.1.2 - pv.1.1 ≤ 399550 := by
  intro pv h
  rw [presentPoints_eq] at h
  fin_cases h <;> norm_num

/-- The query point (20 °C, 4·10⁵ h) lies outside the convex hull of the
present table points. -/
lemma not_inHull_20_4e5 : ¬ inHull (20, 400000) := by
  intro hmem
  have hlin : IsLinearMap ℝ (fun x : ℝ × ℝ => x.2 - x.1) := by
    constructor
    · intro a b
      simp only [Prod.fst_add, Prod.snd_add]
      ring
    · intro r a
      simp only [Prod.smul_fst, Prod.smul_snd, smul_eq_mul]
      ring
  have hconv : Convex ℝ {x : ℝ × ℝ | x.2 - x.1 ≤ 399550} :=
    convex_halfSpace_le hlin _
  have hsub : hullPts ⊆ {x : ℝ × ℝ | x.2 - x.1 ≤ 399550} := by
    rintro x ⟨pv, hpv, rfl⟩
    have hb := sep_bound pv hpv
    have hbr : ((pv.1.2 : ℝ)) - (pv.1.1 : ℝ) ≤ 399550 := by exact_mod_cast hb
    simpa [qPoint] using hbr
  have hx := convexHull_min hsub hconv hmem
  simp only [qPoint, Set.mem_setOf_eq] at hx
  norm_num at hx

/-! ### Helper lemmas: the float model -/

namespace FP

lemma sqrt_fin_of_nonneg {x : ℝ} (h : 0 ≤ x) :
    sqrt (fin x) = fin (Real.sqrt x) := by
  simp [sqrt, not_lt.mpr h]

lemma sqrt_fin_of_neg {x : ℝ} (h : x < 0) : sqrt (fin x) = nan := by
  simp [sqrt, h]

lemma div_fin_fin {a b : ℝ} (h : b ≠ 0) : div (fin a) (fin b) = fin (a / b) := by
  simp [div, h]

lemma mul_fin_fin (a b : ℝ) : mul (fin a) (fin b) = fin (a * b) := rfl

lemma add_fin_fin (a b : ℝ) : add (fin a) (fin b) = fin (a + b) := rfl

lemma sub_fin_fin (a b : ℝ) : sub (fin a) (fin b) = fin (a - b) := by
  simp [sub, add, neg, sub_eq_add_neg]

lemma mul_nan_left (y : FP) : mul nan y = nan := by cases y <;> rfl

lemma mul_fin_nan (a : ℝ) : mul (fin a) nan = nan := rfl

lemma neZero_fin {a : ℝ} : neZero (fin a) ↔ a ≠ 0 := Iff.rfl

lemma le_fin_fin {a b : ℝ} : le (fin a) (fin b) ↔ a ≤ b := Iff.rfl

lemma lt_fin_fin {a b : ℝ} : lt (fin a) (fin b) ↔ a < b := Iff.rfl

lemma not_neZero_fin_zero : ¬ neZero (fin 0) := fun h => h rfl

end FP

/-! ### Helper lemmas: evaluating the pipeline on well-behaved inputs

The `..R` functions below are the real values taken by the corresponding
pipeline steps when no special float value arises; the lemmas relate them to
the `FP`-valued step functions. -/

/-- Real value of step 3 when its divisor is nonzero. -/
noncomputable def s_osR (i : Inputs) (sa : ℝ) : ℝ :=
  i.p * i.d_a / (2 * sa * 1.0 + i.p)

/-- Real value of step 2 when the radicand is nonnegative. -/
noncomputable def h_sR (i : Inputs) : ℝ :=
  Real.sqrt (1.25 * (i.d_a - i.s_s) * (i.s_s - i.c))

/-- Real value of step 4 on finite inputs. -/
noncomputable def f_sR (i : Inputs) (sa : ℝ) : ℝ :=
  2 * h_sR i * ((i.s_s - i.c) - s_osR i sa)

/-- Real value of step 5's `z` when `D_m * (s - c) > 0`. -/
noncomputable def zR (i : Inputs) : ℝ := i.d_a / Real.sqrt (D_m i * (i.s - i.c))

/-- Real value of step 5's `phi_od` in the non-degenerate case. -/
noncomputable def phi_odR (i : Inputs) : ℝ := 2 / (zR i + 1.75)

/-- Real value of step 6's `denominator`. -/
noncomputable def denominatorR (i : Inputs) : ℝ :=
  2 * (i.s - i.c) * Real.sqrt (D_m i * (i.s - i.c))

/-- Real value of step 6's `phi_oc` in the non-degenerate case. -/
noncomputable def phi_ocR (i : Inputs) (sa : ℝ) : ℝ :=
  phi_odR i * (1 + f_sR i sa / denominatorR i)

lemma h_s_eval {i : Inputs} (h : 0 ≤ 1.25 * (i.d_a - i.s_s) * (i.s_s - i.c)) :
    h_s i = FP.fin (h_sR i) := FP.sqrt_fin_of_nonneg h

lemma h_s_nan {i : Inputs} (h : 1.25 * (i.d_a - i.s_s) * (i.s_s - i.c) < 0) :
    h_s i = FP.nan := FP.sqrt_fin_of_neg h

lemma s_os_eval {i : Inputs} {sa : ℝ} (h : 2 * sa * 1.0 + i.p ≠ 0) :
    s_os i sa = FP.fin (s_osR i sa) := FP.div_fin_fin h

lemma f_s_eval {i : Inputs} {sa : ℝ}
    (h1 : 0 ≤ 1.25 * (i.d_a - i.s_s) * (i.s_s - i.c))
    (h2 : 2 * sa * 1.0 + i.p ≠ 0) :
    f_s i sa = FP.fin (f_sR i sa) := by
  unfold f_s
  rw [h_s_eval h1, s_os_eval h2, FP.mul_fin_fin, FP.sub_fin_fin, FP.mul_fin_fin]
  rfl

lemma z_eval {i : Inputs} (h : 0 < D_m i * (i.s - i.c)) :
    z i = FP.fin (zR i) := by
  unfold z
  rw [FP.sqrt_fin_of_nonneg h.le,
    FP.div_fin_fin (ne_of_gt (Real.sqrt_pos.mpr h))]
  rfl

lemma phi_od_eval {i : Inputs} (h : 0 < D_m i * (i.s - i.c))
    (hz : zR i + 1.75 ≠ 0) : phi_od i = FP.fin (phi_odR i) := by
  unfold phi_od
  rw [z_eval h, FP.add_fin_fin, if_pos (FP.neZero_fin.mpr hz),
    FP.div_fin_fin hz]
  rfl

lemma denominator_eval {i : Inputs} (h : 0 ≤ D_m i * (i.s - i.c)) :
    denominator i = FP.fin (denominatorR i) := by
  unfold denominator
  rw [FP.sqrt_fin_of_nonneg h, FP.mul_fin_fin]
  rfl

lemma denominatorR_ne_zero {i : Inputs} (h : 0 < D_m i * (i.s - i.c))
    (hsc : i.s - i.c ≠ 0) : denominatorR i ≠ 0 :=
  mul_ne_zero (mul_ne_zero two_ne_zero hsc) (ne_of_gt (Real.sqrt_pos.mpr h))

lemma phi_oc_eval {i : Inputs} {sa : ℝ}
    (h1 : 0 ≤ 1.25 * (i.d_a - i.s_s) * (i.s_s - i.c))
    (h2 : 2 * sa * 1.0 + i.p ≠ 0)
    (h3 : 0 < D_m i * (i.s - i.c))
    (hsc : i.s - i.c ≠ 0)
    (hz : zR i + 1.75 ≠ 0) :
    phi_oc i sa = FP.fin (phi_ocR i sa) := by
  unfold phi_oc
  rw [denominator_eval h3.le,
    if_pos (FP.neZero_fin.mpr (denominatorR_ne_zero h3 hsc)),
    phi_od_eval h3 hz, f_s_eval h1 h2,
    FP.div_fin_fin (denominatorR_ne_zero h3 hsc), FP.add_fin_fin,
    FP.mul_fin_fin]
  rfl

lemma sigma_eval {i : Inputs} {sa : ℝ}
    (h1 : 0 ≤ 1.25 * (i.d_a - i.s_s) * (i.s_s - i.c))
    (h2 : 2 * sa * 1.0 + i.p ≠ 0)
    (h3 : 0 < D_m i * (i.s - i.c))
    (hsc : i.s - i.c ≠ 0)
    (hz : zR i + 1.75 ≠ 0)
    (hpc : phi_ocR i sa ≠ 0) :
    sigma i sa =
      FP.fin (i.p * (i.D_a - (i.s - i.c)) / (2 * phi_ocR i sa * (i.s - i.c))) := by
  unfold sigma
  rw [phi_oc_eval h1 h2 h3 hsc hz, FP.mul_fin_fin, FP.mul_fin_fin,
    FP.div_fin_fin (mul_ne_zero (mul_ne_zero two_ne_zero hpc) hsc)]

/-! ### Concrete input records -/

/-- The spec's example input record: D_a=325, s=38, d_a=93, s_s=21.5, p=14,
T=545 °C, 219142 h elapsed, 50000 h planned, c=0. -/
noncomputable def specInputs : Inputs :=
  { D_a := 325, s := 38, d_a := 93, s_s := 21.5, p := 14, T := 545,
    operating_hours := 219142, planned_hours := 50000, c := 0 }

/-- The spec record with zero pressure (for the step-8 fallback check). -/
noncomputable def p0Inputs : Inputs :=
  { specInputs with p := 0 }

/-! ### Claims about the allowable-stress interpolation -/

/-- Claim C1: for every query point outside the convex hull of the present
(temperature, duration) points, `interpolate_stress` returns `None` (never a
linearly extrapolated value), and on a table with zero present points it
returns `None` as well; interpolation failures surface as `None` (the
routine's NaN results and exceptions are both mapped to `None`), not as a
raised error. -/
theorem C1_outside_hull_undeterminable :
    (∀ g, NoExtrap g → ∀ q : ℚ × ℚ, ¬ inHull q →
      interpolate_stress g q.1 q.2 = none) ∧
    (∀ g data T h, buildPoints data = [] →
      interpolate_stress_gen g data T h = none) := by
  constructor
  · intro g hg q hq
    rw [interpolate_stress_eq]
    exact hg q hq
  · intro g data T h hdata
    exact interpolate_stress_gen_empty g data T h hdata

/-- Witness for C1: the concrete query (20 °C, 4·10⁵ h) is refused, and so is
a query on a table with no present cells. -/
theorem C1_witness :
    interpolate_stress nodeLookup 20 400000 = none ∧
    interpolate_stress_gen nodeLookup (fun _ => []) 0 0 = none :=
  ⟨C1_outside_hull_undeterminable.1 nodeLookup nodeLookup_noExtrap
      (20, 400000) not_inHull_20_4e5,
   C1_outside_hull_undeterminable.2 nodeLookup (fun _ => []) 0 0 (by decide)⟩

/-- Claim C2: at every tabulated cell with a present stress value, the query
returns exactly that value. -/
theorem C2_exact_at_present_cells :
    ∀ g, ExactAtNodes g → ∀ T h v, ((T, h), v) ∈ presentPoints →
      interpolate_stress g T h = some v := by
  intro g hg T h v hm
  rw [interpolate_stress_eq]
  exact hg (T, h) v hm

/-- Witness for C2: the cell (540 °C, 10⁵ h) holds 73 MPa and is returned
exactly. -/
theorem C2_witness : interpolate_stress nodeLookup 540 100000 = some 73 :=
  C2_exact_at_present_cells nodeLookup nodeLookup_exact 540 100000 73
    (by decide)

/-- Claim C10: every determinable interpolated stress lies between the least
(27 MPa) and greatest (173 MPa) present tabulated values, both of which are
attained in the table. -/
theorem C10_interpolated_value_bounded :
    (∀ g, PWLinear g → ∀ T h v, interpolate_stress g T h = some v →
      27 ≤ v ∧ v ≤ 173) ∧
    (∃ pv ∈ presentPoints, pv.2 = 27) ∧
    (∃ pv ∈ presentPoints, pv.2 = 173) := by
  refine ⟨?_, by decide, by decide⟩
  intro g hg T h v hv
  rw [interpolate_stress_eq] at hv
  exact convexCombo_bounds (hg (T, h) v hv)

/-- Witness for C10: the value 73 MPa returned at (540 °C, 10⁵ h) obeys the
bounds. -/
theorem C10_witness : (27 : ℚ) ≤ 73 ∧ (73 : ℚ) ≤ 173 :=
  C10_interpolated_value_bounded.1 nodeLookup nodeLookup_pwlinear 540 100000 73
    (by rw [interpolate_stress_eq]
        exact nodeLookup_exact (540, 100000) 73 (by decide))

/-- Claim C5: whenever the allowable-stress query returns `None`, the run
reports the undeterminable allowable stress and stops (`st.stop`) without
computing steps 2–8. -/
theorem C5_short_circuit_on_undeterminable :
    ∀ g i, interpolate_stress g i.T (total_hours i) = none →
      runCalculation g i = Outcome.undeterminable := by
  intro g i h
  unfold runCalculation
  rw [h]

/-- Witness for C5: the spec record queries (545 °C, 269142 h), which the
node-lookup interpolator cannot resolve, so the run stops. -/
theorem C5_witness :
    runCalculation nodeLookup specInputs = Outcome.undeterminable := by
  apply C5_short_circuit_on_undeterminable
  rw [show total_hours specInputs = 269142 by
        norm_num [total_hours, specInputs],
      show specInputs.T = 545 from rfl]
  decide

/-! ### Claims about the calculation pipeline -/

/-- Claim C3: step 2 computes `h_s = sqrt(1.25 (d_a − s_s)(s_s − c))`; on the
spec's example record `total_hours = 269142` and
`h_s = sqrt(1.25·71.5·21.5)`, which is within 0.02 mm of 43.82 mm. -/
theorem C3_h_s_formula_and_value :
    (∀ i sa, (compute i sa).h_s =
      FP.sqrt (FP.fin (1.25 * (i.d_a - i.s_s) * (i.s_s - i.c)))) ∧
    total_hours specInputs = 269142 ∧
    (∀ sa, (compute specInputs sa).h_s =
      FP.fin (Real.sqrt (1.25 * 71.5 * 21.5))) ∧
    |Real.sqrt (1.25 * 71.5 * 21.5) - 43.82| < 0.02 := by
  refine ⟨fun i sa => rfl, by norm_num [total_hours, specInputs], ?_, ?_⟩
  · intro sa
    show h_s specInputs = _
    unfold h_s
    rw [show 1.25 * (specInputs.d_a - specInputs.s_s) *
        (specInputs.s_s - specInputs.c) = 1.25 * 71.5 * 21.5 by
      norm_num [specInputs]]
    exact FP.sqrt_fin_of_nonneg (by norm_num)
  · have h1 : (43.8 : ℝ) < Real.sqrt (1.25 * 71.5 * 21.5) := by
      rw [show (1.25 : ℝ) * 71.5 * 21.5 = 1921.5625 by norm_num,
        Real.lt_sqrt (by norm_num)]
      norm_num
    have h2 : Real.sqrt (1.25 * 71.5 * 21.5) < 43.84 := by
      rw [show (1.25 : ℝ) * 71.5 * 21.5 = 1921.5625 by norm_num,
        Real.sqrt_lt' (by norm_num)]
      norm_num
    rw [abs_sub_lt_iff]
    constructor <;> linarith

/-- Claim C4: in step 8, the safety factor is `sigma_allowable / sigma`
whenever `sigma != 0` and `0` when `sigma == 0`, and the verdict is pass
exactly when `sigma <= sigma_allowable`. -/
theorem C4_safety_factor_and_verdict :
    ∀ i sa,
      (FP.neZero (compute i sa).sigma →
        (compute i sa).safety_factor =
          FP.div (FP.fin sa) ((compute i sa).sigma)) ∧
      ((compute i sa).sigma = FP.fin 0 →
        (compute i sa).safety_factor = FP.fin 0) ∧
      ((compute i sa).verdict ↔ FP.le ((compute i sa).sigma) (FP.fin sa)) := by
  intro i sa
  refine ⟨?_, ?_, Iff.rfl⟩
  · intro h
    show safety_factor i sa = _
    unfold safety_factor
    rw [if_pos (show FP.neZero (sigma i sa) from h)]
    rfl
  · intro h
    show safety_factor i sa = FP.fin 0
    unfold safety_factor
    rw [show sigma i sa = FP.fin 0 from h, if_neg FP.not_neZero_fin_zero]

/-- Claim C7: step 4 computes `f_s = 2 h_s ((s_s − c) − s_os)` and the value
flows unmodified (no clamping) into the step-6 strength factor and the
step-7 reduced stress. -/
theorem C7_f_s_passed_through_unclamped :
    ∀ i sa,
      (compute i sa).f_s =
        FP.mul (FP.mul (FP.fin 2) ((compute i sa).h_s))
          (FP.sub (FP.fin (i.s_s - i.c)) ((compute i sa).s_os)) ∧
      (FP.neZero ((compute i sa).denominator) →
        (compute i sa).phi_oc =
          FP.mul ((compute i sa).phi_od)
            (FP.add (FP.fin 1)
              (FP.div ((compute i sa).f_s) ((compute i sa).denominator)))) ∧
      (compute i sa).sigma =
        FP.div (FP.fin (i.p * (i.D_a - (i.s - i.c))))
          (FP.mul (FP.mul (FP.fin 2) ((compute i sa).phi_oc))
            (FP.fin (i.s - i.c))) := by
  intro i sa
  refine ⟨rfl, ?_, rfl⟩
  intro h
  show phi_oc i sa = _
  unfold phi_oc
  rw [if_pos (show FP.neZero (denominator i) from h)]
  rfl

/-- The step-6 divisor is nonzero on the spec record. -/
lemma spec_denominator_neZero : FP.neZero (denominator specInputs) := by
  have hDm : 0 < D_m specInputs * (specInputs.s - specInputs.c) := by
    norm_num [D_m, specInputs]
  rw [denominator_eval hDm.le, FP.neZero_fin]
  exact denominatorR_ne_zero hDm (by norm_num [specInputs])

/-- Witness for C7: on the spec record the unclamped reinforcement area
enters the step-6 formula. -/
theorem C7_witness :
    (compute specInputs 60).phi_oc =
      FP.mul ((compute specInputs 60).phi_od)
        (FP.add (FP.fin 1)
          (FP.div ((compute specInputs 60).f_s)
            ((compute specInputs 60).denominator))) :=
  (C7_f_s_passed_through_unclamped specInputs 60).2.1 spec_denominator_neZero

/-- Evaluation of the pipeline on the zero-pressure spec record: step 3's
divisor is nonzero, step 7's reduced stress is exactly zero and so is the
minimal stub wall thickness. -/
lemma p0_eval {sa : ℝ} (hsa : 0 < sa) :
    sigma p0Inputs sa = FP.fin 0 ∧ s_os p0Inputs sa = FP.fin 0 := by
  have hp : p0Inputs.p = (0 : ℝ) := rfl
  have hrad : 0 ≤ 1.25 * (p0Inputs.d_a - p0Inputs.s_s) *
      (p0Inputs.s_s - p0Inputs.c) := by
    norm_num [p0Inputs, specInputs]
  have hsos : 2 * sa * 1.0 + p0Inputs.p ≠ 0 := by
    rw [hp]
    nlinarith
  have hDm : 0 < D_m p0Inputs * (p0Inputs.s - p0Inputs.c) := by
    norm_num [D_m, p0Inputs, specInputs]
  have hsc : p0Inputs.s - p0Inputs.c ≠ 0 := by norm_num [p0Inputs, specInputs]
  have hz0 : 0 ≤ zR p0Inputs := by
    unfold zR
    exact div_nonneg (by norm_num [p0Inputs, specInputs]) (Real.sqrt_nonneg _)
  have hz : zR p0Inputs + 1.75 ≠ 0 := by linarith
  have hsosR : s_osR p0Inputs sa = 0 := by
    unfold s_osR
    rw [hp, zero_mul, zero_div]
  have hpod : 0 < phi_odR p0Inputs := by
    unfold phi_odR
    exact div_pos two_pos (by linarith)
  have hfs : 0 ≤ f_sR p0Inputs sa := by
    unfold f_sR
    rw [hsosR, sub_zero]
    have h1 : 0 ≤ h_sR p0Inputs := Real.sqrt_nonneg _
    have h2 : (0 : ℝ) ≤ p0Inputs.s_s - p0Inputs.c := by
      norm_num [p0Inputs, specInputs]
    positivity
  have hden : 0 < denominatorR p0Inputs := by
    unfold denominatorR
    have h1 : 0 < Real.sqrt (D_m p0Inputs * (p0Inputs.s - p0Inputs.c)) :=
      Real.sqrt_pos.mpr hDm
    have h2 : (0 : ℝ) < p0Inputs.s - p0Inputs.c := by
      norm_num [p0Inputs, specInputs]
    positivity
  have hpc : phi_ocR p0Inputs sa ≠ 0 := by
    unfold phi_ocR
    have : 0 ≤ f_sR p0Inputs sa / denominatorR p0Inputs :=
      div_nonneg hfs hden.le
    have : 0 < 1 + f_sR p0Inputs sa / denominatorR p0Inputs := by linarith
    exact ne_of_gt (mul_pos hpod this)
  constructor
  · rw [sigma_eval hrad hsos hDm hsc hz hpc, hp, zero_mul, zero_div]
  · rw [s_os_eval hsos, hsosR]

/-- Claim C8: with `p = 0` on the spec record and a determined (positive)
allowable stress, step 7 yields `sigma = 0`, step 8's explicit guard yields
`safety_factor = 0`, and step 3's division is an ordinary finite division
(yielding `s_os = 0`); no divide-by-zero fault occurs in steps 3–8. -/
theorem C8_zero_pressure_fallback :
    ∀ sa : ℝ, 0 < sa →
      (compute p0Inputs sa).sigma = FP.fin 0 ∧
      (compute p0Inputs sa).safety_factor = FP.fin 0 ∧
      (compute p0Inputs sa).s_os = FP.fin 0 := by
  intro sa hsa
  obtain ⟨hsig, hsos⟩ := p0_eval hsa
  refine ⟨hsig, ?_, hsos⟩
  show safety_factor p0Inputs sa = FP.fin 0
  unfold safety_factor
  rw [hsig, if_neg FP.not_neZero_fin_zero]

/-- Witness for C8 at allowable stress 60 MPa. -/
theorem C8_witness :
    (compute p0Inputs 60).sigma = FP.fin 0 ∧
    (compute p0Inputs 60).safety_factor = FP.fin 0 ∧
    (compute p0Inputs 60).s_os = FP.fin 0 :=
  C8_zero_pressure_fallback 60 (by norm_num)

/-- Witness for C4: on the zero-pressure record the reduced stress is the
float zero, the fallback gives safety factor 0, and the verdict relation is
the step-8 comparison. -/
theorem C4_witness :
    (compute p0Inputs 60).safety_factor = FP.fin 0 ∧
    ((compute p0Inputs 60).verdict ↔
      FP.le ((compute p0Inputs 60).sigma) (FP.fin 60)) :=
  ⟨(C4_safety_factor_and_verdict p0Inputs 60).2.1 (p0_eval (by norm_num)).1,
   (C4_safety_factor_and_verdict p0Inputs 60).2.2⟩

/-- When the step-2 radicand is negative (and the allowable stress was
determined with a nonzero step-3 divisor), the run still completes with a
results record whose `h_s` is NaN: no failure outcome of any kind is
produced. -/
lemma run_radicand_neg {g : List ((ℚ × ℚ) × ℚ) → ℚ × ℚ → Option ℚ}
    {i : Inputs} {q : ℚ}
    (hI : interpolate_stress g i.T (total_hours i) = some q)
    (hg : 2 * (q : ℝ) * 1.0 + i.p ≠ 0)
    (hrad : 1.25 * (i.d_a - i.s_s) * (i.s_s - i.c) < 0) :
    runCalculation g i = Outcome.ok (compute i (q : ℝ)) ∧
    (compute i (q : ℝ)).h_s = FP.nan := by
  constructor
  · unfold runCalculation
    rw [hI]
    exact if_neg hg
  · exact h_s_nan hrad

/-- An input with stub wall thinner than the corrosion allowance
(s_s = 1 mm, c = 5 mm): the step-2 radicand is negative. -/
noncomputable def c6Inputs : Inputs :=
  { D_a := 325, s := 38, d_a := 93, s_s := 1, p := 14, T := 540,
    operating_hours := 50000, planned_hours := 50000, c := 5 }

/-- A second such input (c = 6 mm). -/
noncomputable def c6wInputs : Inputs :=
  { c6Inputs with c := 6 }

/-- Counterexample to C6 as stated: on `c6Inputs` the step-2 radicand is
negative (`1.25·92·(1−5) < 0`, undefined arithmetic), yet the run returns an
ordinary `ok` results record (with `h_s = NaN`) — not a tagged
"calculation inputs out of valid domain" failure; the run's only failure
outcomes are the undeterminable-stress stop and the step-3 fault. -/
theorem C6_counterexample :
    runCalculation nodeLookup c6Inputs =
      Outcome.ok (compute c6Inputs ((73 : ℚ) : ℝ)) ∧
    (compute c6Inputs ((73 : ℚ) : ℝ)).h_s = FP.nan :=
  run_radicand_neg
    (by rw [show total_hours c6Inputs = 100000 by
          norm_num [total_hours, c6Inputs],
        show c6Inputs.T = 540 from rfl]
        decide)
    (by push_cast
        norm_num [c6Inputs])
    (by norm_num [c6Inputs])

/-- Claim C6 (amended): undefined intermediate arithmetic is not reported:
whenever the step-2 radicand is negative and the allowable stress is
determined (with step 3's Python division well-defined), the pipeline
completes normally and returns a results record whose `h_s` is the float
NaN, which then propagates through the displayed results; no tagged
domain failure distinct from the undeterminable-stress stop exists. -/
theorem C6_no_domain_failure_tag
    (g : List ((ℚ × ℚ) × ℚ) → ℚ × ℚ → Option ℚ) (i : Inputs) (q : ℚ)
    (hI : interpolate_stress g i.T (total_hours i) = some q)
    (hg : 2 * (q : ℝ) * 1.0 + i.p ≠ 0)
    (hrad : 1.25 * (i.d_a - i.s_s) * (i.s_s - i.c) < 0) :
    runCalculation g i = Outcome.ok (compute i (q : ℝ)) ∧
    (compute i (q : ℝ)).h_s = FP.nan :=
  run_radicand_neg hI hg hrad

/-- Witness for the amended C6, at the input with c = 6 mm. -/
theorem C6_witness :
    runCalculation nodeLookup c6wInputs =
      Outcome.ok (compute c6wInputs ((73 : ℚ) : ℝ)) ∧
    (compute c6wInputs ((73 : ℚ) : ℝ)).h_s = FP.nan :=
  C6_no_domain_failure_tag nodeLookup c6wInputs 73
    (by rw [show total_hours c6wInputs = 100000 by
          norm_num [total_hours, c6wInputs, c6Inputs],
        show c6wInputs.T = 540 from rfl]
        decide)
    (by push_cast
        norm_num [c6wInputs, c6Inputs])
    (by norm_num [c6wInputs, c6Inputs])

/-- Claim C9 (amended): increasing the corrosion allowance `c` to `c'`
strictly decreases the reinforcement area `f_s`, provided the stub is wider
than its wall (`s_s < d_a`) and the increased allowance still leaves
`s_os ≤ s_s − c'` (no wall-thickness deficiency). -/
theorem C9_f_s_strict_decrease (i : Inputs) (c' sa : ℝ)
    (hden : 2 * sa * 1.0 + i.p ≠ 0)
    (hda : i.s_s < i.d_a)
    (hcc : i.c < c')
    (hm0 : 0 ≤ s_osR i sa)
    (hmt : s_osR i sa ≤ i.s_s - c') :
    FP.lt ((compute { i with c := c' } sa).f_s) ((compute i sa).f_s) := by
  have hD : 0 < i.d_a - i.s_s := by linarith
  have ht' : 0 ≤ i.s_s - c' := le_trans hm0 hmt
  have ht : 0 < i.s_s - i.c := by linarith
  have hrad' : 0 ≤ 1.25 * (i.d_a - i.s_s) * (i.s_s - c') := by positivity
  have hrad : 0 ≤ 1.25 * (i.d_a - i.s_s) * (i.s_s - i.c) := by positivity
  show FP.lt (f_s { i with c := c' } sa) (f_s i sa)
  rw [f_s_eval
      (show 0 ≤ 1.25 * (Inputs.d_a { i with c := c' } -
          Inputs.s_s { i with c := c' }) *
          (Inputs.s_s { i with c := c' } - Inputs.c { i with c := c' })
        from hrad')
      (show 2 * sa * 1.0 + Inputs.p { i with c := c' } ≠ 0 from hden),
    f_s_eval hrad hden, FP.lt_fin_fin]
  show 2 * Real.sqrt (1.25 * (i.d_a - i.s_s) * (i.s_s - c')) *
      ((i.s_s - c') - s_osR i sa) <
    2 * Real.sqrt (1.25 * (i.d_a - i.s_s) * (i.s_s - i.c)) *
      ((i.s_s - i.c) - s_osR i sa)
  have hAA : 1.25 * (i.d_a - i.s_s) * (i.s_s - c') <
      1.25 * (i.d_a - i.s_s) * (i.s_s - i.c) := by nlinarith
  have hs' : Real.sqrt (1.25 * (i.d_a - i.s_s) * (i.s_s - c')) <
      Real.sqrt (1.25 * (i.d_a - i.s_s) * (i.s_s - i.c)) :=
    Real.sqrt_lt_sqrt hrad' hAA
  have hs0 : 0 ≤ Real.sqrt (1.25 * (i.d_a - i.s_s) * (i.s_s - c')) :=
    Real.sqrt_nonneg _
  have hsA : 0 < Real.sqrt (1.25 * (i.d_a - i.s_s) * (i.s_s - i.c)) :=
    lt_of_le_of_lt hs0 hs'
  have hb' : 0 ≤ (i.s_s - c') - s_osR i sa := by linarith
  have hb : (i.s_s - c') - s_osR i sa < (i.s_s - i.c) - s_osR i sa := by
    linarith
  nlinarith [mul_le_mul_of_nonneg_right hs'.le hb',
    mul_lt_mul_of_pos_left hb hsA]

/-- Witness for the amended C9: on the spec record, raising c from 0 to
1 mm strictly decreases f_s. -/
theorem C9_witness :
    FP.lt ((compute { specInputs with c := 1 } 60).f_s)
      ((compute specInputs 60).f_s) :=
  C9_f_s_strict_decrease specInputs 1 60
    (by norm_num [specInputs])
    (by norm_num [specInputs])
    (by norm_num [specInputs])
    (by unfold s_osR; norm_num [specInputs])
    (by unfold s_osR; norm_num [specInputs])

/-- A thin-walled stub (s_s = 12 mm) with large corrosion allowance
(c = 11.9 mm), for which s_os exceeds s_s − c. -/
noncomputable def c9aInputs : Inputs :=
  { D_a := 325, s := 38, d_a := 93, s_s := 12, p := 14, T := 545,
    operating_hours := 219142, planned_hours := 50000, c := 11.9 }

/-- The same record with the corrosion allowance increased to 11.99 mm. -/
noncomputable def c9bInputs : Inputs :=
  { c9aInputs with c := 11.99 }

/-- Counterexample to C9 as stated: on `c9aInputs` (where `s_s > c` holds),
increasing `c` from 11.9 to 11.99 strictly **increases** `f_s` — the claimed
unconditional strict decrease fails once `s_os` exceeds `s_s − c`. -/
theorem C9_counterexample :
    c9aInputs.c < c9bInputs.c ∧ c9aInputs.c < c9aInputs.s_s ∧
    FP.lt ((compute c9aInputs 50).f_s) ((compute c9bInputs 50).f_s) := by
  refine ⟨by norm_num [c9aInputs, c9bInputs], by norm_num [c9aInputs], ?_⟩
  show FP.lt (f_s c9aInputs 50) (f_s c9bInputs 50)
  rw [f_s_eval (by norm_num [c9aInputs]) (by norm_num [c9aInputs]),
    f_s_eval (by norm_num [c9bInputs, c9aInputs])
      (by norm_num [c9bInputs, c9aInputs]),
    FP.lt_fin_fin]
  have ha : f_sR c9aInputs 50 = 2 * Real.sqrt 10.125 * (0.1 - 217 / 19) := by
    unfold f_sR h_sR s_osR
    norm_num [c9aInputs]
  have hb : f_sR c9bInputs 50 = 2 * Real.sqrt 1.0125 * (0.01 - 217 / 19) := by
    unfold f_sR h_sR s_osR
    norm_num [c9bInputs, c9aInputs]
  rw [ha, hb]
  have h1 : (3 : ℝ) < Real.sqrt 10.125 := by
    rw [Real.lt_sqrt (by norm_num)]
    norm_num
  have h2 : Real.sqrt 1.0125 < 1.1 := by
    rw [Real.sqrt_lt' (by norm_num)]
    norm_num
  have h3 : (0 : ℝ) ≤ Real.sqrt 1.0125 := Real.sqrt_nonneg _
  nlinarith [h1, h2, h3]

end Troynik
